import Mathlib

/-!
# ingzip: a middleware that decompresses gzip request bodies

Shallow embedding of `src/ingzip/ingzip.go`.  The single operation of the package is
`handler.ServeHTTP(w, r, next)`: a chain of guards, one read of the request body, one gzip
decoding pass, and a call of `next` on every path.

The Go standard library pieces the handler calls are modelled first, one namespace a package
(`strings`, `textproto`, `http`, `ioutil`, `bytes`, `gzip`), then the handler itself.

* A Go `string` is a Lean `String`, a `[]byte` is a `List UInt8`, a Go `error` is a message.
* An `io.ReadCloser` is the finite list of bytes it still yields, the way it ends (end of
  stream or an I/O error), the number of bytes handed out so far and whether it was closed.
  Body streams are finite: on a stream that never ends `ioutil.ReadAll` does not return.
* `compress/gzip` is a parameter of the handler: an interface with `NewReader` and the drain
  of the reader.  `gzip.std` is an instance of it (RFC 1952 container, RFC 1951 inflate).
* `next` is a callback; the embedding returns the list of its invocations, each with the
  response writer, the state of the request object and the state of the stream that was the
  request body on entry.
-/

namespace Ingzip

/-- A Go `byte`. -/
abbrev Byte := UInt8

/-- A Go `error` value that is not nil, by its message. -/
abbrev Err := String

/-! ## package strings -/

namespace strings

/-- Whether `s` begins with `t` (Go: `strings.HasPrefix`, on the characters). -/
def startsWith : List Char → List Char → Bool
  | _, [] => true
  | [], _ :: _ => false
  | c :: s, d :: t => c == d && startsWith s t

/-- Whether `sub` occurs in `s` at some position. -/
def containsChars : List Char → List Char → Bool
  | [], sub => startsWith [] sub
  | c :: s, sub => startsWith (c :: s) sub || containsChars s sub

/-- Go `strings.Contains(s, substr)`: reports whether `substr` is within `s`. -/
def Contains (s substr : String) : Bool :=
  containsChars s.data substr.data

end strings

/-! ## package net/textproto -/

namespace textproto

/-- The bytes allowed in a header field name (RFC 7230 token characters). -/
def validHeaderFieldByte (c : Char) : Bool :=
  c.isAlphanum || "!#$%&*+-.^_|~".data.contains c || c.toNat == 39 || c.toNat == 96

/-- The letter-case pass of Go `canonicalMIMEHeaderKey`: upper case for the first letter and
for a letter after a dash, lower case elsewhere. -/
def canonicalCase : Bool → List Char → List Char
  | _, [] => []
  | upper, c :: cs =>
    let d := if upper && c.isLower then c.toUpper
             else if !upper && c.isUpper then c.toLower
             else c
    d :: canonicalCase (d == '-') cs

/-- Go `textproto.CanonicalMIMEHeaderKey`: a key with a byte that is not a header field byte
is returned unchanged, any other key is put in canonical letter case. -/
def CanonicalMIMEHeaderKey (s : String) : String :=
  if s.data.all validHeaderFieldByte then String.mk (canonicalCase true s.data) else s

end textproto

/-! ## package net/http: headers and requests -/

namespace http

/-- Go `http.Header`, a `map[string][]string`, as the list of its entries.  Lookup takes the
first entry of a key; deletion removes every entry of a key. -/
abbrev Header := List (String × List String)

/-- The map lookup `h[key]`: the values stored under exactly `key`, `[]` when there are
none. -/
def Header.index (h : Header) (key : String) : List String :=
  (h.lookup key).getD []

/-- Go `Header.Get(key)`: the first value under the canonical form of `key`, `""` when there
is none. -/
def Header.Get (h : Header) (key : String) : String :=
  match Header.index h (textproto.CanonicalMIMEHeaderKey key) with
  | [] => ""
  | v :: _ => v

/-- Go `Header.Del(key)`: deletes the values under the canonical form of `key`. -/
def Header.Del (h : Header) (key : String) : Header :=
  h.filter (fun e => e.1 != textproto.CanonicalMIMEHeaderKey key)

/-- An `io.ReadCloser`, the type of `Request.Body`: the bytes reads still yield, the I/O
error raised once they are used up (`none`: clean end of stream), the number of bytes handed
out so far, and whether `Close` was called on it. -/
structure ReadCloser where
  pending : List Byte
  fault : Option Err
  consumed : Nat
  closed : Bool
deriving DecidableEq, Repr

/-- Go `(io.Closer).Close` on a request body: marks the stream closed. -/
def ReadCloser.Close (b : ReadCloser) : ReadCloser :=
  { b with closed := true }

/-- The part of `*http.Request` the handler touches: the header map and the body, which is
`none` for Go `nil`; `rest` stands for every other field (method, URL, ...). -/
structure Request (ρ : Type) where
  Header : http.Header
  Body : Option ReadCloser
  rest : ρ
deriving DecidableEq, Repr

end http

/-! ## packages bytes and io/ioutil -/

namespace bytes

/-- Go `bytes.Buffer`, by its unread bytes. -/
structure Buffer where
  unread : List Byte
deriving DecidableEq, Repr

/-- Go `bytes.NewBuffer(buf)`: a buffer whose unread contents are `buf`. -/
def NewBuffer (buf : List Byte) : Buffer := ⟨buf⟩

end bytes

namespace ioutil

/-- Go `ioutil.ReadAll(r)` on a body stream: the bytes read until the end of the stream or
its I/O error, that error if any, and the stream afterwards (used up). -/
def ReadAll (b : http.ReadCloser) : (List Byte × Option Err) × http.ReadCloser :=
  ((b.pending, b.fault),
   { b with pending := [], consumed := b.consumed + b.pending.length })

/-- Go `ioutil.NopCloser(r)` over a buffer: a fresh stream over the buffer contents, nothing
read from it yet, ending cleanly. -/
def NopCloser (b : bytes.Buffer) : http.ReadCloser :=
  { pending := b.unread, fault := none, consumed := 0, closed := false }

end ioutil

/-! ## package compress/gzip, as the handler uses it -/

/-- The two calls the handler makes into `compress/gzip`: `gzip.NewReader(raw)` over a
buffer, which fails on a bad header, and `ioutil.ReadAll(unz)` on the reader it returns,
which yields the decoded bytes and the error that stopped the decoding, if any. -/
structure Gzip (Z : Type) where
  NewReader : bytes.Buffer → Except Err Z
  ReadAll : Z → List Byte × Option Err

/-! ## An instance of the gzip interface -/

namespace gzip

/-- Go `io.EOF`. -/
def errEOF : Err := "EOF"
/-- Go `io.ErrUnexpectedEOF`. -/
def errUnexpectedEOF : Err := "unexpected EOF"
/-- Go `gzip.ErrHeader`. -/
def ErrHeader : Err := "gzip: invalid header"
/-- Go `gzip.ErrChecksum`. -/
def ErrChecksum : Err := "gzip: invalid checksum"
/-- Go `flate.CorruptInputError`. -/
def errCorrupt : Err := "flate: corrupt input"

/-! ### CRC-32 (IEEE) -/

/-- One bit step of the reflected CRC-32 with polynomial `0xedb88320`. -/
def crcShift (c : Nat) : Nat :=
  if c % 2 = 1 then (c / 2) ^^^ 0xedb88320 else c / 2

/-- Eight bit steps after folding one byte into the register. -/
def crcByte (c b : Nat) : Nat :=
  crcShift (crcShift (crcShift (crcShift (crcShift (crcShift (crcShift (crcShift (c ^^^ b))))))))

/-- Go `crc32.ChecksumIEEE`, on byte values. -/
def crc32 (bs : List Nat) : Nat :=
  (bs.foldl crcByte 0xffffffff) ^^^ 0xffffffff

/-! ### Bit input -/

/-- The eight bits of a byte value, least significant first. -/
def byteBits (b : Nat) : List Bool :=
  [b.testBit 0, b.testBit 1, b.testBit 2, b.testBit 3,
   b.testBit 4, b.testBit 5, b.testBit 6, b.testBit 7]

/-- The bit stream of a byte sequence as deflate reads it. -/
def toBits : List Nat → List Bool
  | [] => []
  | b :: bs => byteBits b ++ toBits bs

/-- The value of a bit list, least significant bit first. -/
def bitsVal : List Bool → Nat
  | [] => 0
  | b :: bs => b.toNat + 2 * bitsVal bs

/-- The byte sequence of a bit stream that stands at a byte boundary. -/
def ofBits : Nat → List Bool → List Nat
  | 0, _ => []
  | _ + 1, [] => []
  | fuel + 1, b :: bs => bitsVal ((b :: bs).take 8) :: ofBits fuel ((b :: bs).drop 8)

/-- Reads an `n`-bit number, least significant bit first. -/
def takeBits : Nat → List Bool → Option (Nat × List Bool)
  | 0, bits => some (0, bits)
  | _ + 1, [] => none
  | n + 1, b :: bits =>
    match takeBits n bits with
    | none => none
    | some (v, rest) => some (b.toNat + 2 * v, rest)

/-- Drops the bits left in a partly read byte. -/
def alignByte (bits : List Bool) : List Bool :=
  bits.drop (bits.length % 8)

/-! ### Huffman codes -/

/-- The symbols whose code has length `len`, in increasing order, counting symbols from `i`. -/
def symsOfLen (len : Nat) : Nat → List Nat → List Nat
  | _, [] => []
  | i, l :: ls => if l = len then i :: symsOfLen len (i + 1) ls else symsOfLen len (i + 1) ls

/-- A canonical Huffman code: for each length 1, 2, ..., 15 the symbols of that length. -/
def mkTable (lens : List Nat) : List (List Nat) :=
  (List.range 15).map (fun k => symsOfLen (k + 1) 0 lens)

/-- Largest code length in use, 0 for an empty code. -/
def maxLen (lens : List Nat) : Nat := lens.foldl max 0

/-- Sum over the symbols in use of `2 ^ (max - len)`. -/
def kraft (m : Nat) (lens : List Nat) : Nat :=
  (lens.map (fun l => if l = 0 then 0 else 2 ^ (m - l))).sum

/-- Go `huffmanDecoder.init`: the code is empty, complete, or the degenerate code of one
symbol of length one. -/
def huffOk (lens : List Nat) : Bool :=
  let m := maxLen lens
  m == 0 || kraft m lens == 2 ^ m || (kraft m lens == 1 && m == 1)

/-- Decodes one symbol: code bits arrive most significant first; `code` is the code read so
far and `first` the first code of the current length. -/
def decodeSym : List (List Nat) → Nat → Nat → List Bool → Except Err (Nat × List Bool)
  | [], _, _, _ => .error errCorrupt
  | _ :: _, _, _, [] => .error errUnexpectedEOF
  | syms :: tbl, code, first, b :: bits =>
    let code := code + b.toNat
    if code < first + syms.length then .ok (syms.getD (code - first) 0, bits)
    else decodeSym tbl (2 * code) (2 * (first + syms.length)) bits

/-! ### Inflate (RFC 1951) -/

/-- Base match length of the length symbols 257..285. -/
def lenBase : List Nat :=
  [3, 4, 5, 6, 7, 8, 9, 10, 11, 13, 15, 17, 19, 23, 27, 31, 35, 43, 51, 59, 67, 83, 99, 115,
   131, 163, 195, 227, 258]
/-- Number of extra bits of the length symbols 257..285. -/
def lenExtra : List Nat :=
  [0, 0, 0, 0, 0, 0, 0, 0, 1, 1, 1, 1, 2, 2, 2, 2, 3, 3, 3, 3, 4, 4, 4, 4, 5, 5, 5, 5, 0]
/-- Base distance of the distance symbols 0..29. -/
def distBase : List Nat :=
  [1, 2, 3, 4, 5, 7, 9, 13, 17, 25, 33, 49, 65, 97, 129, 193, 257, 385, 513, 769, 1025, 1537,
   2049, 3073, 4097, 6145, 8193, 12289, 16385, 24577]
/-- Number of extra bits of the distance symbols 0..29. -/
def distExtra : List Nat :=
  [0, 0, 0, 0, 1, 1, 2, 2, 3, 3, 4, 4, 5, 5, 6, 6, 7, 7, 8, 8, 9, 9, 10, 10, 11, 11, 12, 12,
   13, 13]
/-- Code lengths of the literal and length symbols in a fixed Huffman block. -/
def fixedLitLens : List Nat :=
  List.replicate 144 8 ++ List.replicate 112 9 ++ List.replicate 24 7 ++ List.replicate 8 8
/-- Code lengths of the distance symbols in a fixed Huffman block. -/
def fixedDistLens : List Nat := List.replicate 32 5
/-- Order in which a dynamic block stores the lengths of the code length code. -/
def clOrder : List Nat := [16, 17, 18, 0, 8, 7, 9, 6, 10, 5, 11, 4, 12, 3, 13, 2, 14, 1, 15]

/-- Appends `n` copies of the byte `d` positions back; `out` is newest first. -/
def copyBack : Nat → Nat → List Nat → List Nat
  | 0, _, out => out
  | n + 1, d, out => copyBack n d (out.getD (d - 1) 0 :: out)

/-- The symbols of one Huffman block up to its end-of-block symbol; `out` is the output so
far, newest byte first. -/
def inflateCodes (lit dist : List (List Nat)) :
    Nat → List Bool → List Nat → List Nat × Except Err (List Bool)
  | 0, _, out => (out, .error errCorrupt)
  | fuel + 1, bits, out =>
    match decodeSym lit 0 0 bits with
    | .error e => (out, .error e)
    | .ok (sym, bits) =>
      if sym < 256 then inflateCodes lit dist fuel bits (sym :: out)
      else if sym = 256 then (out, .ok bits)
      else if sym > 285 then (out, .error errCorrupt)
      else
        match takeBits (lenExtra.getD (sym - 257) 0) bits with
        | none => (out, .error errUnexpectedEOF)
        | some (e, bits) =>
          let length := lenBase.getD (sym - 257) 0 + e
          match decodeSym dist 0 0 bits with
          | .error e => (out, .error e)
          | .ok (dsym, bits) =>
            if dsym ≥ 30 then (out, .error errCorrupt)
            else
              match takeBits (distExtra.getD dsym 0) bits with
              | none => (out, .error errUnexpectedEOF)
              | some (e, bits) =>
                let d := distBase.getD dsym 0 + e
                if d > out.length then (out, .error errCorrupt)
                else inflateCodes lit dist fuel bits (copyBack length d out)

/-- Reads `n` three-bit code lengths of the code length code. -/
def readClLens : Nat → List Bool → Option (List Nat × List Bool)
  | 0, bits => some ([], bits)
  | n + 1, bits =>
    match takeBits 3 bits with
    | none => none
    | some (v, bits) =>
      match readClLens n bits with
      | none => none
      | some (vs, bits) => some (v :: vs, bits)

/-- Puts the code lengths read in the order of `clOrder` at their symbols 0..18. -/
def clLens (vs : List Nat) : List Nat :=
  (List.range 19).map (fun s => vs.getD (clOrder.indexOf s) 0)

/-- Reads the `total` code lengths of a dynamic block, coded with the code length code;
`acc` holds the lengths read so far, last first. -/
def readLens (cl : List (List Nat)) (total : Nat) :
    Nat → List Bool → List Nat → Except Err (List Nat × List Bool)
  | 0, _, _ => .error errCorrupt
  | fuel + 1, bits, acc =>
    if acc.length = total then .ok (acc.reverse, bits)
    else
      match decodeSym cl 0 0 bits with
      | .error e => .error e
      | .ok (sym, bits) =>
        if sym < 16 then readLens cl total fuel bits (sym :: acc)
        else
          let nb := if sym = 16 then 2 else if sym = 17 then 3 else 7
          let base := if sym = 16 then 3 else if sym = 17 then 3 else 11
          match takeBits nb bits with
          | none => .error errUnexpectedEOF
          | some (e, bits) =>
            if sym = 16 ∧ acc = [] then .error errCorrupt
            else if acc.length + (base + e) > total then .error errCorrupt
            else
              let v := if sym = 16 then acc.headD 0 else 0
              readLens cl total fuel bits (List.replicate (base + e) v ++ acc)

/-- The header of a dynamic Huffman block: the two code length lists. -/
def readDynamic (bits : List Bool) : Except Err ((List Nat × List Nat) × List Bool) :=
  match takeBits 5 bits with
  | none => .error errUnexpectedEOF
  | some (hlit, bits) =>
    match takeBits 5 bits with
    | none => .error errUnexpectedEOF
    | some (hdist, bits) =>
      match takeBits 4 bits with
      | none => .error errUnexpectedEOF
      | some (hclen, bits) =>
        let nlit := hlit + 257
        let ndist := hdist + 1
        if nlit > 286 ∨ ndist > 30 then .error errCorrupt
        else
          match readClLens (hclen + 4) bits with
          | none => .error errUnexpectedEOF
          | some (vs, bits) =>
            let cls := clLens vs
            if !huffOk cls then .error errCorrupt
            else
              match readLens (mkTable cls) (nlit + ndist) (nlit + ndist + 1) bits [] with
              | .error e => .error e
              | .ok (lens, bits) =>
                let ll := lens.take nlit
                let dl := lens.drop nlit
                if !huffOk ll || !huffOk dl then .error errCorrupt
                else .ok ((ll, dl), bits)

/-- A stored block: the length, its complement, and the bytes. -/
def inflateStored (bits : List Bool) (out : List Nat) : List Nat × Except Err (List Bool) :=
  let bits := alignByte bits
  match takeBits 16 bits with
  | none => (out, .error errUnexpectedEOF)
  | some (n, bits) =>
    match takeBits 16 bits with
    | none => (out, .error errUnexpectedEOF)
    | some (nn, bits) =>
      if nn ≠ 65535 - n then (out, .error errCorrupt)
      else if bits.length < 8 * n then (out, .error errUnexpectedEOF)
      else ((ofBits n (bits.take (8 * n))).reverse ++ out, .ok (bits.drop (8 * n)))

/-- The blocks of a deflate stream up to and including the final one. -/
def inflateBlocks : Nat → List Bool → List Nat → List Nat × Except Err (List Bool)
  | 0, _, out => (out, .error errCorrupt)
  | fuel + 1, bits, out =>
    match takeBits 1 bits with
    | none => (out, .error errUnexpectedEOF)
    | some (final, bits) =>
      match takeBits 2 bits with
      | none => (out, .error errUnexpectedEOF)
      | some (typ, bits) =>
        let res : List Nat × Except Err (List Bool) :=
          if typ = 0 then inflateStored bits out
          else if typ = 1 then
            inflateCodes (mkTable fixedLitLens) (mkTable fixedDistLens) bits.length bits out
          else if typ = 2 then
            match readDynamic bits with
            | .error e => (out, .error e)
            | .ok ((ll, dl), bits) => inflateCodes (mkTable ll) (mkTable dl) bits.length bits out
          else (out, .error errCorrupt)
        match res with
        | (out, .error e) => (out, .error e)
        | (out, .ok bits) =>
          if final = 1 then (out, .ok bits) else inflateBlocks fuel bits out

/-- Go `flate.NewReader(r)` read to its end: the decoded bytes, and either the error that
stopped the decoding or the input bytes after the deflate stream. -/
def inflate (input : List Nat) : List Nat × Except Err (List Nat) :=
  let bits := toBits input
  match inflateBlocks (bits.length + 1) bits [] with
  | (out, .error e) => (out.reverse, .error e)
  | (out, .ok bits) => (out.reverse, .ok (ofBits input.length (alignByte bits)))

/-! ### The gzip container (RFC 1952) -/

/-- A little-endian number. -/
def le : List Nat → Nat
  | [] => 0
  | b :: bs => b + 256 * le bs

/-- Go `(*Reader).readString`: a zero-terminated string of at most 512 bytes, terminator
included; gives the input after the terminator. -/
def readString : Nat → List Nat → Except Err (List Nat)
  | _, [] => .error errUnexpectedEOF
  | 0, _ :: _ => .error ErrHeader
  | n + 1, b :: bs => if b = 0 then .ok bs else readString n bs

/-- Go `(*Reader).readHeader`: checks a member header and gives the input after it. -/
def readHeader (input : List Nat) : Except Err (List Nat) :=
  if input = [] then .error errEOF
  else if input.length < 10 then .error errUnexpectedEOF
  else if input.getD 0 0 ≠ 0x1f ∨ input.getD 1 0 ≠ 0x8b ∨ input.getD 2 0 ≠ 8 then
    .error ErrHeader
  else
    let flg := input.getD 3 0
    let rest := input.drop 10
    -- FEXTRA
    let r1 : Except Err (List Nat) :=
      if flg.testBit 2 then
        if rest.length < 2 then .error errUnexpectedEOF
        else if (rest.drop 2).length < le (rest.take 2) then .error errUnexpectedEOF
        else .ok (rest.drop (2 + le (rest.take 2)))
      else .ok rest
    -- FNAME
    let r2 : Except Err (List Nat) :=
      match r1 with
      | .error e => .error e
      | .ok rest => if flg.testBit 3 then readString 512 rest else .ok rest
    -- FCOMMENT
    let r3 : Except Err (List Nat) :=
      match r2 with
      | .error e => .error e
      | .ok rest => if flg.testBit 4 then readString 512 rest else .ok rest
    -- FHCRC
    match r3 with
    | .error e => .error e
    | .ok rest =>
      if flg.testBit 1 then
        if rest.length < 2 then .error errUnexpectedEOF
        else if le (rest.take 2) ≠ crc32 (input.take (input.length - rest.length)) % 65536 then
          .error ErrHeader
        else .ok (rest.drop 2)
      else .ok rest

/-- Go `gzip.Reader` over a buffer, after a member header was read: the input from the
deflate stream of that member on. -/
structure Reader where
  input : List Nat
deriving DecidableEq, Repr

/-- The members from the deflate stream of the current one on: each is inflated, its trailer
(CRC-32 and size) checked, and the header of the next one read, until the input ends. -/
def readMembers : Nat → List Nat → List Nat → List Nat × Option Err
  | 0, _, acc => (acc, some errCorrupt)
  | fuel + 1, input, acc =>
    match inflate input with
    | (out, .error e) => (acc ++ out, some e)
    | (out, .ok rest) =>
      if rest.length < 8 then (acc ++ out, some errUnexpectedEOF)
      else if le (rest.take 4) ≠ crc32 out ∨ le ((rest.drop 4).take 4) ≠ out.length % 2 ^ 32 then
        (acc ++ out, some ErrChecksum)
      else
        match readHeader (rest.drop 8) with
        | .error e => if e = errEOF then (acc ++ out, none) else (acc ++ out, some e)
        | .ok next => readMembers fuel next (acc ++ out)

/-- An instance of the gzip interface: the RFC 1952 container with RFC 1951 inflate, members
in sequence as Go `gzip.Reader` reads them. -/
def std : Gzip Reader where
  NewReader := fun raw =>
    match readHeader (raw.unread.map UInt8.toNat) with
    | .error e => .error e
    | .ok rest => .ok ⟨rest⟩
  ReadAll := fun z =>
    match readMembers (z.input.length + 1) z.input [] with
    | (out, e) => (out.map UInt8.ofNat, e)

end gzip

/-! ## package ingzip -/

/-- Source constant `encodingGzip`. -/
def encodingGzip : String := "gzip"
/-- Source constant `headerContentEncoding`. -/
def headerContentEncoding : String := "Content-Encoding"
/-- Source constant `headerContentLength`. -/
def headerContentLength : String := "Content-Length"
/-- Source constant `headerSecWebSocketKey`. -/
def headerSecWebSocketKey : String := "Sec-WebSocket-Key"

/-- Source type `handler`: a struct with no fields. -/
structure handler where
deriving DecidableEq, Repr

/-- Source function `InGzip`: returns a handler. -/
def InGzip : handler := {}

/-- One invocation `next(w, r)`: the response writer passed, the state of the request object
at that moment, and the state at that moment of the stream that was `r.Body` on entry. -/
structure Call (W ρ : Type) where
  w : W
  r : http.Request ρ
  origBody : Option http.ReadCloser
deriving DecidableEq, Repr

/-- Source method `(*handler).ServeHTTP(w, r, next)`: the invocations of `next` it makes, in
order.  The request is a pointer in Go; reading `r.Body` changes the state of that stream in
place, so the request handed on after the read holds the used-up stream. -/
def handler.ServeHTTP {Z W ρ : Type} (_h : handler) (gz : Gzip Z) (w : W)
    (r : http.Request ρ) : List (Call W ρ) :=
  -- Skip compression if the client doesn't accept gzip encoding.
  if !strings.Contains (r.Header.Get headerContentEncoding) encodingGzip then
    [⟨w, r, r.Body⟩]
  -- Skip compression if client attempt WebSocket connection
  else if (r.Header.Get headerSecWebSocketKey).length > 0 then
    [⟨w, r, r.Body⟩]
  else
    -- Read compressed Body
    match r.Body with
    | none => [⟨w, r, r.Body⟩]
    | some body =>
      let ((data, err), body1) := ioutil.ReadAll body
      let r1 : http.Request ρ := { r with Body := some body1 }
      match err with
      | some _ => [⟨w, r1, some body1⟩]
      | none =>
        let raw := bytes.NewBuffer data
        match gz.NewReader raw with
        | .error _ => [⟨w, r1, some body1⟩]
        | .ok unz =>
          match gz.ReadAll unz with
          | (_, some _) => [⟨w, r1, some body1⟩]
          | (buf, none) =>
            -- unz.Close(): closes the gzip reader over raw (not r.Body); its error is dropped
            -- replace body of current request with un-compressed version
            let r2 : http.Request ρ :=
              { r1 with Body := some (ioutil.NopCloser (bytes.NewBuffer buf)) }
            -- remove content-legth and content-encoding
            let r3 : http.Request ρ :=
              { r2 with Header := r2.Header.Del headerContentLength }
            let r4 : http.Request ρ :=
              { r3 with Header := r3.Header.Del headerContentEncoding }
            [⟨w, r4, some body1⟩]

/-! ## What `next` observes, and the conditions the claims name -/

/-- What a downstream handler gets when it reads the whole body of the request it was
handed, as `testHTTPHandler` of the tests does: `none` for a nil body. -/
def http.Request.readBack {ρ : Type} (r : http.Request ρ) :
    Option (List Byte × Option Err) :=
  r.Body.map (fun b => (ioutil.ReadAll b).1)

/-- The plaintext `data` is a valid gzip encoding of: the gzip stream over `data` opens and
drains without error.  `none` when the opening or the draining fails. -/
def gzip.decode {Z : Type} (gz : Gzip Z) (data : List Byte) : Option (List Byte) :=
  match gz.NewReader (bytes.NewBuffer data) with
  | .error _ => none
  | .ok unz =>
    match gz.ReadAll unz with
    | (buf, none) => some buf
    | (_, some _) => none

/-- The gzip indicator: the value of `Content-Encoding` given by `Header.Get` contains
`"gzip"`. -/
def gzipIndicator {ρ : Type} (r : http.Request ρ) : Bool :=
  strings.Contains (r.Header.Get headerContentEncoding) encodingGzip

/-- Full success, condition by condition: gzip indicator present, no WebSocket key, body
present (the stream `body`), read succeeds, gzip stream opens and drains without error (to
`P`). -/
def FullSuccess {Z ρ : Type} (gz : Gzip Z) (r : http.Request ρ) (body : http.ReadCloser)
    (P : List Byte) : Prop :=
  gzipIndicator r = true ∧ r.Header.Get headerSecWebSocketKey = "" ∧ r.Body = some body ∧
    body.fault = none ∧ gzip.decode gz body.pending = some P

/-- The paths other than full success, one disjunct a path: no gzip indicator, WebSocket key
present, absent body, body-read failure, and failure of the gzip stream to open or to
drain. -/
def OffSuccess {Z ρ : Type} (gz : Gzip Z) (r : http.Request ρ) : Prop :=
  gzipIndicator r = false ∨ r.Header.Get headerSecWebSocketKey ≠ "" ∨ r.Body = none ∨
    ∃ body, r.Body = some body ∧ (body.fault ≠ none ∨ gzip.decode gz body.pending = none)

/-- The request after the handler has read its body `body`: the same request with the stream
used up. -/
def drained {ρ : Type} (r : http.Request ρ) (body : http.ReadCloser) : http.Request ρ :=
  { r with Body := some (ioutil.ReadAll body).2 }

/-! ## Test data -/

/-- Go `Header.Set(key, value)`: the entry under the canonical form of `key` becomes the
single value `value`. -/
def http.Header.Set (h : http.Header) (key value : String) : http.Header :=
  (textproto.CanonicalMIMEHeaderKey key, [value]) ::
    h.filter (fun e => e.1 != textproto.CanonicalMIMEHeaderKey key)

/-- Test constant `gzipTestString`, `"Foobar Wibble Content"`, as bytes. -/
def gzipTestString : List Byte :=
  [70, 111, 111, 98, 97, 114, 32, 87, 105, 98, 98, 108, 101, 32, 67, 111, 110, 116, 101, 110,
   116]

/-- Test helper `getUnCompressed`. -/
def getUnCompressed : List Byte := gzipTestString

/-- A gzip encoding of `gzipTestString` (one member, one fixed Huffman block), standing for
the bytes of the test helper `getCompressed`. -/
def compressedTestString : List Byte :=
  [31, 139, 8, 0, 0, 0, 0, 0, 0, 255, 115, 203, 207, 79, 74, 44, 82, 8, 207, 76, 74, 202, 73,
   85, 112, 206, 207, 43, 73, 205, 43, 1, 0, 133, 110, 51, 113, 21, 0, 0, 0]

/-- A stream over `data` as `http.NewRequest` wraps a `bytes.Reader`: nothing read yet, not
closed, ending cleanly. -/
def bodyOf (data : List Byte) : http.ReadCloser :=
  { pending := data, fault := none, consumed := 0, closed := false }

/-- The request of `Test_ServeHTTP_Compressed_post`: the compressed bytes as body and
`Content-Encoding: gzip`, here with a `Content-Length` as a client sends it. -/
def postCompressed : http.Request String :=
  { Header := http.Header.Set (http.Header.Set [] headerContentLength "41")
      headerContentEncoding encodingGzip,
    Body := some (bodyOf compressedTestString),
    rest := "POST http://localhost/foobar" }

/-- The bytes of `gzipTestString` under `Content-Encoding: gzip`: the indicator is set and
the body is not gzip data. -/
def postMislabelled : http.Request String :=
  { Header := http.Header.Set (http.Header.Set [] headerContentLength "21")
      headerContentEncoding encodingGzip,
    Body := some (bodyOf getUnCompressed),
    rest := "POST http://localhost/foobar" }

/-- The request of `Test_ServeHTTP_Compressed_get`: no body, `Content-Encoding: gzip`. -/
def getNoBody : http.Request String :=
  { Header := http.Header.Set [] headerContentEncoding encodingGzip,
    Body := none,
    rest := "GET http://localhost/foobar" }

/-- The request of `Test_ServeHTTP_NoCompression`: plain bytes, no `Content-Encoding`. -/
def postPlain : http.Request String :=
  { Header := [],
    Body := some (bodyOf getUnCompressed),
    rest := "POST http://localhost/foobar" }

/-- The headers of `Test_ServeHTTP_WebSocketConnection`, `Content-Encoding: gzip` and
`Sec-WebSocket-Key: Test`, over a body that is valid gzip data. -/
def postWebSocket : http.Request String :=
  { Header := http.Header.Set (http.Header.Set [] headerContentEncoding encodingGzip)
      headerSecWebSocketKey "Test",
    Body := some (bodyOf compressedTestString),
    rest := "POST http://localhost/foobar" }

/-- The compressed bytes with no `Content-Encoding` header at all. -/
def postUnlabelled : http.Request String :=
  { Header := http.Header.Set [] headerContentLength "41",
    Body := some (bodyOf compressedTestString),
    rest := "POST http://localhost/foobar" }

/-- A gzip encoding of `compressedTestString`: the test string compressed twice. -/
def twiceCompressed : List Byte :=
  [31, 139, 8, 0, 0, 0, 0, 0, 0, 255, 147, 239, 230, 96, 0, 131, 255, 197, 167, 207, 251, 123,
   233, 4, 113, 156, 247, 241, 58, 229, 25, 90, 112, 238, 188, 182, 231, 89, 109, 70, 134, 214,
   60, 227, 66, 81, 160, 60, 0, 213, 145, 36, 208, 41, 0, 0, 0]

/-- The twice compressed bytes under `Content-Encoding: gzip`. -/
def postTwice : http.Request String :=
  { Header := http.Header.Set (http.Header.Set [] headerContentLength "57")
      headerContentEncoding encodingGzip,
    Body := some (bodyOf twiceCompressed),
    rest := "POST http://localhost/foobar" }

/-- The compressed bytes cut short in the trailer, under `Content-Encoding: gzip`: the gzip
stream opens and fails while it is drained. -/
def postTruncated : http.Request String :=
  { Header := http.Header.Set (http.Header.Set [] headerContentLength "37")
      headerContentEncoding encodingGzip,
    Body := some (bodyOf (compressedTestString.take 37)),
    rest := "POST http://localhost/foobar" }

/-- Test constant `gzipNoContent`, `"no-content"`, as bytes. -/
def gzipNoContent : List Byte := [110, 111, 45, 99, 111, 110, 116, 101, 110, 116]

/-- Test function `testHTTPHandler`, the `next` of the tests: what it writes to the response
recorder, the body read to its end or `gzipNoContent` for a nil body. -/
def testHTTPHandler {ρ : Type} (r : http.Request ρ) : List Byte :=
  match r.Body with
  | some b => (ioutil.ReadAll b).1.1
  | none => gzipNoContent

/-- The response bodies recorded when `ServeHTTP` runs with `testHTTPHandler` as `next`. -/
def recorded {Z ρ : Type} (gz : Gzip Z) (r : http.Request ρ) : List (List Byte) :=
  (InGzip.ServeHTTP gz () r).map (fun c => testHTTPHandler c.r)

/-- The request of `Test_ServeHTTP_WebSocketConnection`: plain bytes under
`Content-Encoding: gzip` and `Sec-WebSocket-Key: Test`. -/
def postWebSocketPlain : http.Request String :=
  { Header := http.Header.Set (http.Header.Set [] headerContentEncoding encodingGzip)
      headerSecWebSocketKey "Test",
    Body := some (bodyOf getUnCompressed),
    rest := "POST http://localhost/foobar" }

instance {Z ρ : Type} [DecidableEq ρ] (gz : Gzip Z) (r : http.Request ρ)
    (body : http.ReadCloser) (P : List Byte) : Decidable (FullSuccess gz r body P) :=
  inferInstanceAs (Decidable (_ ∧ _ ∧ _ ∧ _ ∧ _))

/-! ## Lemmas on the library model -/

theorem length_pos_iff_ne_empty (s : String) : s.length > 0 ↔ s ≠ "" := by
  cases s with
  | mk cs =>
    cases cs with
    | nil => simp
    | cons c cs => simp [String.length, String.ext_iff]

theorem lookup_filter_self (h : http.Header) (k : String) :
    (h.filter (fun e => e.1 != k)).lookup k = none := by
  induction h with
  | nil => rfl
  | cons e h ih =>
    obtain ⟨k', v⟩ := e
    by_cases hk : k' = k
    · simp only [List.filter_cons, hk, bne_self_eq_false, Bool.false_eq_true, if_false, ih]
    · have hk1 : (k' != k) = true := by simpa using hk
      have hk2 : (k == k') = false := by simpa using fun h' => hk h'.symm
      simp only [List.filter_cons, hk1, if_true, List.lookup_cons, hk2, ih]

theorem lookup_filter_other (h : http.Header) (k k' : String) (hne : k' ≠ k) :
    (h.filter (fun e => e.1 != k)).lookup k' = h.lookup k' := by
  induction h with
  | nil => rfl
  | cons e h ih =>
    obtain ⟨k2, v⟩ := e
    by_cases hk : k2 = k
    · have hk3 : (k' == k2) = false := by simpa [hk] using hne
      simp only [List.filter_cons, hk, bne_self_eq_false, Bool.false_eq_true, if_false, ih,
        List.lookup_cons]
      rw [← hk, hk3]
    · have hk1 : (k2 != k) = true := by simpa using hk
      simp only [List.filter_cons, hk1, if_true, List.lookup_cons, ih]

theorem Get_Del_self (h : http.Header) (k : String) : (h.Del k).Get k = "" := by
  simp [http.Header.Get, http.Header.Del, http.Header.index, lookup_filter_self]

theorem mem_Del (h : http.Header) (k : String) (e : String × List String) :
    e ∈ h.Del k ↔ e ∈ h ∧ e.1 ≠ textproto.CanonicalMIMEHeaderKey k := by
  simp [http.Header.Del]

theorem contains_gzip_examples :
    strings.Contains "gzip" encodingGzip = true ∧
    strings.Contains "x-gzip" encodingGzip = true ∧
    strings.Contains "gzip, deflate" encodingGzip = true ∧
    strings.Contains "deflate" encodingGzip = false ∧
    strings.Contains "GZIP" encodingGzip = false ∧
    strings.Contains "" encodingGzip = false := by
  decide

theorem canonical_contentEncoding :
    textproto.CanonicalMIMEHeaderKey headerContentEncoding = "Content-Encoding" := by decide

theorem canonical_contentLength :
    textproto.CanonicalMIMEHeaderKey headerContentLength = "Content-Length" := by decide

theorem canonical_secWebSocketKey :
    textproto.CanonicalMIMEHeaderKey headerSecWebSocketKey = "Sec-Websocket-Key" := by decide

/-! ## The handler, path by path -/

theorem ServeHTTP_noGzip {Z W ρ : Type} (h : handler) (gz : Gzip Z) (w : W)
    (r : http.Request ρ) (hce : gzipIndicator r = false) :
    h.ServeHTTP gz w r = [⟨w, r, r.Body⟩] := by
  simp only [gzipIndicator] at hce
  simp [handler.ServeHTTP, hce]

theorem ServeHTTP_webSocket {Z W ρ : Type} (h : handler) (gz : Gzip Z) (w : W)
    (r : http.Request ρ) (hws : r.Header.Get headerSecWebSocketKey ≠ "") :
    h.ServeHTTP gz w r = [⟨w, r, r.Body⟩] := by
  have hpos : (r.Header.Get headerSecWebSocketKey).length > 0 :=
    (length_pos_iff_ne_empty _).2 hws
  unfold handler.ServeHTTP
  split
  · rfl
  · simp only [if_pos hpos]

theorem ServeHTTP_noBody {Z W ρ : Type} (h : handler) (gz : Gzip Z) (w : W)
    (r : http.Request ρ) (hb : r.Body = none) :
    h.ServeHTTP gz w r = [⟨w, r, r.Body⟩] := by
  unfold handler.ServeHTTP
  split
  · rfl
  · split
    · rfl
    · simp [hb]

theorem ServeHTTP_success {Z W ρ : Type} (h : handler) (gz : Gzip Z) (w : W)
    (r : http.Request ρ) (body : http.ReadCloser) (P : List Byte)
    (hs : FullSuccess gz r body P) :
    h.ServeHTTP gz w r =
      [⟨w, ⟨(r.Header.Del headerContentLength).Del headerContentEncoding,
            some (ioutil.NopCloser (bytes.NewBuffer P)), r.rest⟩,
        some (ioutil.ReadAll body).2⟩] := by
  obtain ⟨hce, hws, hb, hf, hd⟩ := hs
  simp only [gzipIndicator] at hce
  simp only [gzip.decode] at hd
  cases hN : gz.NewReader (bytes.NewBuffer body.pending) with
  | error e => simp [hN] at hd
  | ok unz =>
    rw [hN] at hd
    simp only at hd
    rcases hR : gz.ReadAll unz with ⟨buf, _ | e⟩
    · rw [hR] at hd
      simp only [Option.some.injEq] at hd
      subst hd
      simp [handler.ServeHTTP, hce, hws, hb, hf, ioutil.ReadAll, hN, hR]
    · rw [hR] at hd
      simp at hd

theorem ServeHTTP_afterRead {Z W ρ : Type} (h : handler) (gz : Gzip Z) (w : W)
    (r : http.Request ρ) (body : http.ReadCloser)
    (hce : gzipIndicator r = true) (hws : r.Header.Get headerSecWebSocketKey = "")
    (hb : r.Body = some body)
    (hbad : body.fault ≠ none ∨ gzip.decode gz body.pending = none) :
    h.ServeHTTP gz w r = [⟨w, drained r body, some (ioutil.ReadAll body).2⟩] := by
  simp only [gzipIndicator] at hce
  cases hf : body.fault with
  | some e => simp [handler.ServeHTTP, hce, hws, hb, hf, ioutil.ReadAll, drained]
  | none =>
    have hd : gzip.decode gz body.pending = none := by
      rcases hbad with h1 | h1
      · exact absurd hf h1
      · exact h1
    simp only [gzip.decode] at hd
    cases hN : gz.NewReader (bytes.NewBuffer body.pending) with
    | error e => simp [handler.ServeHTTP, hce, hws, hb, hf, ioutil.ReadAll, hN, drained]
    | ok unz =>
      rw [hN] at hd
      simp only at hd
      rcases hR : gz.ReadAll unz with ⟨buf, _ | e⟩
      · rw [hR] at hd
        simp at hd
      · simp [handler.ServeHTTP, hce, hws, hb, hf, ioutil.ReadAll, hN, hR, drained]

theorem ServeHTTP_cases {Z W ρ : Type} (h : handler) (gz : Gzip Z) (w : W)
    (r : http.Request ρ) :
    (∃ body P, FullSuccess gz r body P) ∨
      h.ServeHTTP gz w r = [⟨w, r, r.Body⟩] ∨
      ∃ body, r.Body = some body ∧
        h.ServeHTTP gz w r = [⟨w, drained r body, some (ioutil.ReadAll body).2⟩] := by
  cases hce : gzipIndicator r with
  | false => exact Or.inr (Or.inl (ServeHTTP_noGzip h gz w r hce))
  | true =>
    by_cases hws : r.Header.Get headerSecWebSocketKey = ""
    · cases hb : r.Body with
      | none =>
        have := ServeHTTP_noBody h gz w r hb
        rw [hb] at this
        exact Or.inr (Or.inl this)
      | some body =>
        by_cases hf : body.fault = none
        · cases hd : gzip.decode gz body.pending with
          | none =>
            exact Or.inr (Or.inr ⟨body, rfl,
              ServeHTTP_afterRead h gz w r body hce hws hb (Or.inr hd)⟩)
          | some P => exact Or.inl ⟨body, P, hce, hws, hb, hf, hd⟩
        · exact Or.inr (Or.inr ⟨body, rfl,
            ServeHTTP_afterRead h gz w r body hce hws hb (Or.inl hf)⟩)
    · exact Or.inr (Or.inl (ServeHTTP_webSocket h gz w r hws))

theorem decode_eq_none_iff {Z : Type} (gz : Gzip Z) (data : List Byte) :
    gzip.decode gz data = none ↔
      (∃ e, gz.NewReader (bytes.NewBuffer data) = .error e) ∨
      ∃ unz buf e, gz.NewReader (bytes.NewBuffer data) = .ok unz ∧
        gz.ReadAll unz = (buf, some e) := by
  unfold gzip.decode
  cases hN : gz.NewReader (bytes.NewBuffer data) with
  | error e => simp
  | ok unz =>
    rcases hR : gz.ReadAll unz with ⟨buf, _ | e⟩
    · simp [hR]
    · simp [hR]

theorem offSuccess_iff {Z ρ : Type} (gz : Gzip Z) (r : http.Request ρ) :
    OffSuccess gz r ↔ ∀ body P, ¬ FullSuccess gz r body P := by
  constructor
  · rintro (h1 | h1 | h1 | ⟨b, hb, h1 | h1⟩) body P ⟨hce, hws, hbody, hf, hd⟩
    · rw [hce] at h1
      cases h1
    · exact h1 hws
    · rw [h1] at hbody
      cases hbody
    · rw [hb] at hbody
      cases hbody
      exact h1 hf
    · rw [hb] at hbody
      cases hbody
      rw [h1] at hd
      cases hd
  · intro hns
    cases hce : gzipIndicator r with
    | false => exact Or.inl hce
    | true =>
      by_cases hws : r.Header.Get headerSecWebSocketKey = ""
      · cases hb : r.Body with
        | none => exact Or.inr (Or.inr (Or.inl hb))
        | some body =>
          refine Or.inr (Or.inr (Or.inr ⟨body, hb, ?_⟩))
          by_cases hf : body.fault = none
          · cases hd : gzip.decode gz body.pending with
            | none => exact Or.inr rfl
            | some P => exact absurd ⟨hce, hws, hb, hf, hd⟩ (hns body P)
          · exact Or.inl hf
      · exact Or.inr (Or.inl hws)

/-! ## The tests of the package, run on the embedding -/

theorem Test_ServeHTTP_Compressed_get : recorded gzip.std getNoBody = [gzipNoContent] := by
  decide

set_option maxRecDepth 1000000 in
theorem Test_ServeHTTP_Compressed_post :
    recorded gzip.std postCompressed = [gzipTestString] := by
  decide

theorem Test_ServeHTTP_NoCompression : recorded gzip.std postPlain = [gzipTestString] := by
  decide

theorem Test_ServeHTTP_CompressionWithNoGzipHeader :
    recorded gzip.std postPlain = [getUnCompressed] := by
  decide

theorem Test_ServeHTTP_WebSocketConnection :
    recorded gzip.std postWebSocketPlain = [getUnCompressed] := by
  decide

/-! ## The claims -/

/-- C1: for every byte string `P` and every request whose `Content-Encoding` value contains
`"gzip"`, whose `Sec-WebSocket-Key` is empty or absent and whose body is a readable stream
yielding a valid gzip encoding of `P`, `ServeHTTP` invokes `next` (once, with the same `w`)
with a request whose body reads back exactly `P`. -/
theorem C1_compressed_body_reads_back_plaintext {Z W ρ : Type} (h : handler) (gz : Gzip Z)
    (w : W) (r : http.Request ρ) (body : http.ReadCloser) (P : List Byte)
    (hce : strings.Contains (r.Header.Get headerContentEncoding) encodingGzip = true)
    (hws : r.Header.Get headerSecWebSocketKey = "")
    (hbody : r.Body = some body) (hread : body.fault = none)
    (hgz : gzip.decode gz body.pending = some P) :
    ∃ c, h.ServeHTTP gz w r = [c] ∧ c.w = w ∧ c.r.readBack = some (P, none) := by
  refine ⟨_, ServeHTTP_success h gz w r body P ⟨hce, hws, hbody, hread, hgz⟩, rfl, ?_⟩
  simp [http.Request.readBack, ioutil.ReadAll, ioutil.NopCloser, bytes.NewBuffer]

set_option maxRecDepth 1000000 in
/-- C1 at the request of `Test_ServeHTTP_Compressed_post`: the handler hands on a body that
reads back `"Foobar Wibble Content"`. -/
theorem C1_witness :
    strings.Contains (postCompressed.Header.Get headerContentEncoding) encodingGzip = true ∧
    postCompressed.Header.Get headerSecWebSocketKey = "" ∧
    gzip.decode gzip.std compressedTestString = some gzipTestString ∧
    ∃ c, InGzip.ServeHTTP gzip.std "w" postCompressed = [c] ∧ c.w = "w" ∧
      c.r.readBack = some (gzipTestString, none) :=
  ⟨by decide, by decide, by decide,
   C1_compressed_body_reads_back_plaintext InGzip gzip.std "w" postCompressed
     (bodyOf compressedTestString) gzipTestString (by decide) (by decide) rfl rfl (by decide)⟩

/-- C2: on full success the request handed to `next` has no `Content-Length` and no
`Content-Encoding` entry left, whatever values the two headers had: no entry of the header
map is under either key, and `Header.Get` gives `""` for both, in any spelling of the key
name. -/
theorem C2_success_removes_length_and_encoding {Z W ρ : Type} (h : handler) (gz : Gzip Z)
    (w : W) (r : http.Request ρ) (body : http.ReadCloser) (P : List Byte)
    (hs : FullSuccess gz r body P) :
    ∃ c, h.ServeHTTP gz w r = [c] ∧
      (∀ e ∈ c.r.Header, e.1 ≠ "Content-Length" ∧ e.1 ≠ "Content-Encoding") ∧
      c.r.Header.lookup "Content-Length" = none ∧
      c.r.Header.lookup "Content-Encoding" = none ∧
      c.r.Header.Get headerContentLength = "" ∧
      c.r.Header.Get headerContentEncoding = "" ∧
      ∀ key, textproto.CanonicalMIMEHeaderKey key = "Content-Length" ∨
          textproto.CanonicalMIMEHeaderKey key = "Content-Encoding" →
        c.r.Header.Get key = "" := by
  have hCL : List.lookup "Content-Length"
      (http.Header.Del (http.Header.Del r.Header headerContentLength)
        headerContentEncoding) = none := by
    unfold http.Header.Del
    rw [canonical_contentEncoding, canonical_contentLength,
      lookup_filter_other _ _ _ (by decide), lookup_filter_self]
  have hCE : List.lookup "Content-Encoding"
      (http.Header.Del (http.Header.Del r.Header headerContentLength)
        headerContentEncoding) = none := by
    unfold http.Header.Del
    rw [canonical_contentEncoding, lookup_filter_self]
  refine ⟨_, ServeHTTP_success h gz w r body P hs, ?_, hCL, hCE, ?_, ?_, ?_⟩
  · intro e he
    have h1 := (mem_Del _ _ _).1 he
    have h2 := (mem_Del _ _ _).1 h1.1
    rw [canonical_contentEncoding] at h1
    rw [canonical_contentLength] at h2
    exact ⟨h2.2, h1.2⟩
  · show http.Header.Get _ headerContentLength = ""
    unfold http.Header.Get http.Header.index
    rw [canonical_contentLength, hCL]
    rfl
  · exact Get_Del_self _ _
  · intro key hkey
    show http.Header.Get _ key = ""
    unfold http.Header.Get http.Header.index
    rcases hkey with hk | hk
    · rw [hk, hCL]
      rfl
    · rw [hk, hCE]
      rfl

set_option maxRecDepth 1000000 in
/-- C2 at the request of `Test_ServeHTTP_Compressed_post`, which carries both headers. -/
theorem C2_witness :
    FullSuccess gzip.std postCompressed (bodyOf compressedTestString) gzipTestString ∧
    postCompressed.Header.Get headerContentLength = "41" ∧
    ∃ c, InGzip.ServeHTTP gzip.std "w" postCompressed = [c] ∧
      (∀ e ∈ c.r.Header, e.1 ≠ "Content-Length" ∧ e.1 ≠ "Content-Encoding") ∧
      c.r.Header.lookup "Content-Length" = none ∧
      c.r.Header.lookup "Content-Encoding" = none ∧
      c.r.Header.Get headerContentLength = "" ∧
      c.r.Header.Get headerContentEncoding = "" ∧
      ∀ key, textproto.CanonicalMIMEHeaderKey key = "Content-Length" ∨
          textproto.CanonicalMIMEHeaderKey key = "Content-Encoding" →
        c.r.Header.Get key = "" :=
  ⟨by decide, by decide,
   C2_success_removes_length_and_encoding InGzip gzip.std "w" postCompressed
     (bodyOf compressedTestString) gzipTestString (by decide)⟩

set_option maxRecDepth 1000000 in
/-- C3 fails as stated: under `Content-Encoding: gzip`, with no WebSocket key, the body
`"Foobar Wibble Content"` is not gzip data, and the one request handed to `next` holds the
stream the handler has used up: it reads back no bytes, not the 21 bytes of the body. -/
theorem C3_counterexample :
    gzipIndicator postMislabelled = true ∧
    postMislabelled.Header.Get headerSecWebSocketKey = "" ∧
    postMislabelled.Body = some (bodyOf getUnCompressed) ∧
    gzip.decode gzip.std getUnCompressed = none ∧
    (InGzip.ServeHTTP gzip.std "w" postMislabelled).map (fun c => c.r.readBack) =
      [some ([], none)] ∧
    ¬ ∃ c, c ∈ InGzip.ServeHTTP gzip.std "w" postMislabelled ∧
      c.r.readBack = some (getUnCompressed, none) := by
  have hcalls : InGzip.ServeHTTP gzip.std "w" postMislabelled =
      [⟨"w", drained postMislabelled (bodyOf getUnCompressed),
        some (ioutil.ReadAll (bodyOf getUnCompressed)).2⟩] := by decide
  refine ⟨by decide, by decide, rfl, by decide, by decide, ?_⟩
  rintro ⟨c, hc, hback⟩
  rw [hcalls, List.mem_singleton] at hc
  subst hc
  revert hback
  decide

/-- C3, amended: for every request with the gzip indicator set, no `Sec-WebSocket-Key`, and a
body stream yielding bytes `B` that are not valid gzip data (the gzip stream fails to open or
to drain), `ServeHTTP` invokes `next` once with the same request, headers intact, whose body
is still the original stream, which the handler has read to its end: all of `B` is consumed
and the body reads back no bytes. -/
theorem C3_invalid_gzip_forwards_used_up_body {Z W ρ : Type} (h : handler) (gz : Gzip Z)
    (w : W) (r : http.Request ρ) (body : http.ReadCloser)
    (hce : gzipIndicator r = true) (hws : r.Header.Get headerSecWebSocketKey = "")
    (hbody : r.Body = some body) (hread : body.fault = none)
    (hbad : gzip.decode gz body.pending = none) :
    ∃ c, h.ServeHTTP gz w r = [c] ∧ c.w = w ∧ c.r.Header = r.Header ∧ c.r.rest = r.rest ∧
      c.r.Body = some { body with pending := [],
                                  consumed := body.consumed + body.pending.length } ∧
      c.origBody = c.r.Body ∧
      c.r.readBack = some ([], none) := by
  refine ⟨_, ServeHTTP_afterRead h gz w r body hce hws hbody (Or.inr hbad), rfl, rfl, rfl,
    rfl, rfl, ?_⟩
  simp [http.Request.readBack, drained, ioutil.ReadAll, hread]

set_option maxRecDepth 1000000 in
/-- C3 as amended at the mislabelled request: 21 bytes consumed, none left to read. -/
theorem C3_witness :
    gzipIndicator postMislabelled = true ∧
    gzip.decode gzip.std getUnCompressed = none ∧
    ∃ c, InGzip.ServeHTTP gzip.std "w" postMislabelled = [c] ∧ c.w = "w" ∧
      c.r.Header = postMislabelled.Header ∧ c.r.rest = postMislabelled.rest ∧
      c.r.Body = some { bodyOf getUnCompressed with
        pending := [],
        consumed := (bodyOf getUnCompressed).consumed + (bodyOf getUnCompressed).pending.length } ∧
      c.origBody = c.r.Body ∧
      c.r.readBack = some ([], none) :=
  ⟨by decide, by decide,
   C3_invalid_gzip_forwards_used_up_body InGzip gzip.std "w" postMislabelled
     (bodyOf getUnCompressed) (by decide) (by decide) rfl rfl (by decide)⟩

/-- C4: for every request, response writer and gzip library, `ServeHTTP` invokes `next`
exactly once, with that same `w` and the one request object (every field but header and body
as on entry), on every path; the handler has no error result. -/
theorem C4_next_invoked_exactly_once {Z W ρ : Type} (h : handler) (gz : Gzip Z) (w : W)
    (r : http.Request ρ) :
    ∃ c, h.ServeHTTP gz w r = [c] ∧ c.w = w ∧ c.r.rest = r.rest ∧
      (h.ServeHTTP gz w r).length = 1 := by
  rcases ServeHTTP_cases h gz w r with ⟨body, P, hs⟩ | hcalls | ⟨body, _, hcalls⟩
  · exact ⟨_, ServeHTTP_success h gz w r body P hs, rfl, rfl,
      by rw [ServeHTTP_success h gz w r body P hs]; rfl⟩
  · exact ⟨_, hcalls, rfl, rfl, by rw [hcalls]; rfl⟩
  · exact ⟨_, hcalls, rfl, rfl, by rw [hcalls]; rfl⟩

/-- C5: for every request whose `Content-Encoding` value, as `Header.Get` returns it, does not
contain `"gzip"`, `ServeHTTP` invokes `next` with the request as it came: the body stream is
not read (its state, read count included, is the one on entry), whatever the other headers
and the body bytes. -/
theorem C5_no_indicator_leaves_body_untouched {Z W ρ : Type} (h : handler) (gz : Gzip Z)
    (w : W) (r : http.Request ρ)
    (hce : strings.Contains (r.Header.Get headerContentEncoding) encodingGzip = false) :
    h.ServeHTTP gz w r = [⟨w, r, r.Body⟩] ∧
      ∀ c ∈ h.ServeHTTP gz w r, c.r.Body = r.Body ∧ c.r.readBack = r.readBack := by
  have hcalls := ServeHTTP_noGzip h gz w r hce
  refine ⟨hcalls, ?_⟩
  intro c hc
  rw [hcalls, List.mem_singleton] at hc
  subst hc
  exact ⟨rfl, rfl⟩

/-- C5 at a request whose body is valid gzip data and which has no `Content-Encoding`. -/
theorem C5_witness :
    strings.Contains (postUnlabelled.Header.Get headerContentEncoding) encodingGzip = false ∧
    (InGzip.ServeHTTP gzip.std "w" postUnlabelled =
        [⟨"w", postUnlabelled, postUnlabelled.Body⟩] ∧
      ∀ c ∈ InGzip.ServeHTTP gzip.std "w" postUnlabelled,
        c.r.Body = postUnlabelled.Body ∧ c.r.readBack = postUnlabelled.readBack) :=
  ⟨by decide,
   C5_no_indicator_leaves_body_untouched InGzip gzip.std "w" postUnlabelled (by decide)⟩

/-- C6: for every request with the gzip indicator set and a `Sec-WebSocket-Key` header with a
non-empty value, `ServeHTTP` invokes `next` with the request as it came: the body is
unchanged and the stream is not read (zero bytes consumed), also when the body is valid gzip
data. -/
theorem C6_websocket_key_leaves_body_untouched {Z W ρ : Type} (h : handler) (gz : Gzip Z)
    (w : W) (r : http.Request ρ)
    (_hce : gzipIndicator r = true)
    (hws : r.Header.Get headerSecWebSocketKey ≠ "") :
    h.ServeHTTP gz w r = [⟨w, r, r.Body⟩] ∧
      ∀ c ∈ h.ServeHTTP gz w r, c.r.Body = r.Body ∧ c.origBody = r.Body := by
  have hcalls := ServeHTTP_webSocket h gz w r hws
  refine ⟨hcalls, ?_⟩
  intro c hc
  rw [hcalls, List.mem_singleton] at hc
  subst hc
  exact ⟨rfl, rfl⟩

/-- C6 at the request of `Test_ServeHTTP_WebSocketConnection` with a gzip body. -/
theorem C6_witness :
    gzipIndicator postWebSocket = true ∧
    postWebSocket.Header.Get headerSecWebSocketKey = "Test" ∧
    (InGzip.ServeHTTP gzip.std "w" postWebSocket =
        [⟨"w", postWebSocket, postWebSocket.Body⟩] ∧
      ∀ c ∈ InGzip.ServeHTTP gzip.std "w" postWebSocket,
        c.r.Body = postWebSocket.Body ∧ c.origBody = postWebSocket.Body) :=
  ⟨by decide, by decide,
   C6_websocket_key_leaves_body_untouched InGzip gzip.std "w" postWebSocket (by decide)
     (by decide)⟩

/-- C7: for every request whose body is absent (nil), `ServeHTTP` invokes `next` with the
body still absent, whatever the headers, also when `Content-Encoding` indicates gzip. -/
theorem C7_absent_body_stays_absent {Z W ρ : Type} (h : handler) (gz : Gzip Z) (w : W)
    (r : http.Request ρ) (hbody : r.Body = none) :
    ∃ c, h.ServeHTTP gz w r = [c] ∧ c.w = w ∧ c.r = r ∧ c.r.Body = none := by
  exact ⟨_, ServeHTTP_noBody h gz w r hbody, rfl, rfl, hbody⟩

/-- C7 at the request of `Test_ServeHTTP_Compressed_get`. -/
theorem C7_witness :
    getNoBody.Body = none ∧ gzipIndicator getNoBody = true ∧
    ∃ c, InGzip.ServeHTTP gzip.std "w" getNoBody = [c] ∧ c.w = "w" ∧ c.r = getNoBody ∧
      c.r.Body = none :=
  ⟨rfl, by decide, C7_absent_body_stays_absent InGzip gzip.std "w" getNoBody rfl⟩

/-- C8: idempotence.  When `ServeHTTP` succeeds in decompressing the body to `P`, a second
application to the request it handed on takes the path of no gzip indicator: it hands that
request on as it is, body a fresh stream over `P` and headers unchanged, and does not read
or decode the body again, also when `P` is itself valid gzip data. -/
theorem C8_second_application_forwards_unchanged {Z W ρ : Type} (h : handler) (gz : Gzip Z)
    (w : W) (r : http.Request ρ) (body : http.ReadCloser) (P : List Byte)
    (hs : FullSuccess gz r body P) :
    ∃ c, h.ServeHTTP gz w r = [c] ∧
      gzipIndicator c.r = false ∧
      c.r.Body = some (ioutil.NopCloser (bytes.NewBuffer P)) ∧
      h.ServeHTTP gz w c.r = [⟨w, c.r, c.r.Body⟩] := by
  have hind : gzipIndicator
      (⟨(r.Header.Del headerContentLength).Del headerContentEncoding,
        some (ioutil.NopCloser (bytes.NewBuffer P)), r.rest⟩ : http.Request ρ) = false := by
    show strings.Contains (http.Header.Get (http.Header.Del _ _) _) encodingGzip = false
    rw [Get_Del_self]
    decide
  exact ⟨_, ServeHTTP_success h gz w r body P hs, hind, rfl, ServeHTTP_noGzip h gz w _ hind⟩

set_option maxRecDepth 1000000 in
/-- C8 at a body compressed twice: the first application decodes one layer, the second
hands the request on with the inner gzip data untouched. -/
theorem C8_witness :
    FullSuccess gzip.std postTwice (bodyOf twiceCompressed) compressedTestString ∧
    gzip.decode gzip.std compressedTestString = some gzipTestString ∧
    ∃ c, InGzip.ServeHTTP gzip.std "w" postTwice = [c] ∧
      gzipIndicator c.r = false ∧
      c.r.Body = some (ioutil.NopCloser (bytes.NewBuffer compressedTestString)) ∧
      InGzip.ServeHTTP gzip.std "w" c.r = [⟨"w", c.r, c.r.Body⟩] :=
  ⟨by decide, by decide,
   C8_second_application_forwards_unchanged InGzip gzip.std "w" postTwice
     (bodyOf twiceCompressed) compressedTestString (by decide)⟩

/-- C9: on every path other than full success (no gzip indicator, WebSocket key present,
absent body, body-read failure, gzip-open failure, drain failure) the header map of the
request handed to `next` is the one on entry, `Content-Encoding` and `Content-Length`
included. -/
theorem C9_headers_kept_off_the_success_path {Z W ρ : Type} (h : handler) (gz : Gzip Z)
    (w : W) (r : http.Request ρ) (hoff : OffSuccess gz r) :
    ∃ c, h.ServeHTTP gz w r = [c] ∧ c.r.Header = r.Header ∧
      c.r.Header.Get headerContentEncoding = r.Header.Get headerContentEncoding ∧
      c.r.Header.Get headerContentLength = r.Header.Get headerContentLength := by
  rcases ServeHTTP_cases h gz w r with ⟨body, P, hs⟩ | hcalls | ⟨body, _, hcalls⟩
  · exact absurd hs ((offSuccess_iff gz r).1 hoff body P)
  · exact ⟨_, hcalls, rfl, rfl, rfl⟩
  · exact ⟨_, hcalls, rfl, rfl, rfl⟩

set_option maxRecDepth 1000000 in
/-- C9 at a body cut short in the gzip trailer (drain failure): both headers are kept. -/
theorem C9_witness :
    OffSuccess gzip.std postTruncated ∧
    postTruncated.Header.Get headerContentEncoding = "gzip" ∧
    postTruncated.Header.Get headerContentLength = "37" ∧
    ∃ c, InGzip.ServeHTTP gzip.std "w" postTruncated = [c] ∧
      c.r.Header = postTruncated.Header ∧
      c.r.Header.Get headerContentEncoding = postTruncated.Header.Get headerContentEncoding ∧
      c.r.Header.Get headerContentLength = postTruncated.Header.Get headerContentLength :=
  have hoff : OffSuccess gzip.std postTruncated :=
    Or.inr (Or.inr (Or.inr ⟨bodyOf (compressedTestString.take 37), rfl,
      Or.inr (by decide)⟩))
  ⟨hoff, by decide, by decide,
   C9_headers_kept_off_the_success_path InGzip gzip.std "w" postTruncated hoff⟩

set_option maxRecDepth 1000000 in
/-- C10 fails as stated: at the request of `Test_ServeHTTP_Compressed_post` the handler
reaches full success, and at the one invocation of `next` the original body stream is read
to its end (41 bytes) and not closed. -/
theorem C10_counterexample :
    FullSuccess gzip.std postCompressed (bodyOf compressedTestString) gzipTestString ∧
    (InGzip.ServeHTTP gzip.std "w" postCompressed).map (fun c => c.origBody) =
      [some { pending := [], fault := none, consumed := 41, closed := false }] ∧
    ¬ ∃ c b, c ∈ InGzip.ServeHTTP gzip.std "w" postCompressed ∧ c.origBody = some b ∧
      b.closed = true := by
  have hcalls : InGzip.ServeHTTP gzip.std "w" postCompressed =
      [⟨"w", ⟨[], some (bodyOf gzipTestString), "POST http://localhost/foobar"⟩,
        some { pending := [], fault := none, consumed := 41, closed := false }⟩] := by decide
  refine ⟨by decide, by rw [hcalls]; rfl, ?_⟩
  rintro ⟨c, b, hc, hb, hclosed⟩
  rw [hcalls, List.mem_singleton] at hc
  subst hc
  have hb2 := Option.some.inj hb
  subst hb2
  exact absurd hclosed (by decide)

/-- C10, amended: on the success path of `ServeHTTP`, by the time `next` is invoked the
original body stream has been read to its end, and the handler has not closed it: its closed
state is the one on entry; the request handed on holds a fresh stream over the decompressed
bytes instead. -/
theorem C10_original_body_drained_not_closed {Z W ρ : Type} (h : handler) (gz : Gzip Z)
    (w : W) (r : http.Request ρ) (body : http.ReadCloser) (P : List Byte)
    (hs : FullSuccess gz r body P) :
    ∃ c b, h.ServeHTTP gz w r = [c] ∧ c.origBody = some b ∧
      b.pending = [] ∧ b.consumed = body.consumed + body.pending.length ∧
      b.closed = body.closed ∧
      c.r.Body = some (ioutil.NopCloser (bytes.NewBuffer P)) :=
  ⟨_, _, ServeHTTP_success h gz w r body P hs, rfl, rfl, rfl, rfl, rfl⟩

set_option maxRecDepth 1000000 in
/-- C10 as amended at the request of `Test_ServeHTTP_Compressed_post`, whose body stream is
open on entry. -/
theorem C10_witness :
    FullSuccess gzip.std postCompressed (bodyOf compressedTestString) gzipTestString ∧
    (bodyOf compressedTestString).closed = false ∧
    ∃ c b, InGzip.ServeHTTP gzip.std "w" postCompressed = [c] ∧ c.origBody = some b ∧
      b.pending = [] ∧
      b.consumed =
        (bodyOf compressedTestString).consumed + (bodyOf compressedTestString).pending.length ∧
      b.closed = (bodyOf compressedTestString).closed ∧
      c.r.Body = some (ioutil.NopCloser (bytes.NewBuffer gzipTestString)) :=
  ⟨by decide, rfl,
   C10_original_body_drained_not_closed InGzip gzip.std "w" postCompressed
     (bodyOf compressedTestString) gzipTestString (by decide)⟩

end Ingzip
